import Mathlib

/-!
Shallow embedding of the vectorized cell processor, the one-stage halo
exchange and the mirror plug-in of the ls1-mardyn molecular-dynamics code,
together with proofs of the specified properties.

Real arithmetic on `double` values is modelled over `ℚ` (respectively `ℝ`
where a limit is stated); SIMD lanes are modelled lane-wise, a lane's mask
being a `Bool`.
-/

namespace LS1

/-- A 3-vector of rationals, one SIMD lane of an (x, y, z) triple. -/
abbrev Vec3 := ℚ × ℚ × ℚ

def vadd (a b : Vec3) : Vec3 := (a.1 + b.1, a.2.1 + b.2.1, a.2.2 + b.2.2)

def vsub (a b : Vec3) : Vec3 := (a.1 - b.1, a.2.1 - b.2.1, a.2.2 - b.2.2)

def vneg (a : Vec3) : Vec3 := (-a.1, -a.2.1, -a.2.2)

def vscale (s : ℚ) (a : Vec3) : Vec3 := (s * a.1, s * a.2.1, s * a.2.2)

/-- `vcp_simd_scalProd`: the dot product of two lanes of 3-vectors. -/
def scalProd (a b : Vec3) : ℚ := a.1 * b.1 + a.2.1 * b.2.1 + a.2.2 * b.2.2

/-- `vcp_simd_applymask`: keep the value on a set mask lane, zero otherwise. -/
def applymask (x : ℚ) (mask : Bool) : ℚ := if mask then x else 0

/-- The part of a `ParticleCell` that `processCell` / `processCellPair`
inspect: halo flag, cell index, and the molecule count of its SoA. -/
structure CellView where
  isHalo : Bool
  cellIndex : ℕ
  molNum : ℕ

/-- What `processCell` decides to do with a cell. -/
inductive CellAction where
  | skip : CellAction
  | singleCellMacroscopic : CellAction
deriving DecidableEq

/-- What `processCellPair` decides to do with a pair of cells:
nothing, or a `_calculatePairs<CellPairPolicy_, macroscopic>` invocation. -/
inductive PairAction where
  | skip : PairAction
  | calc (macroscopic : Bool) : PairAction
deriving DecidableEq

/-- `VectorizedCellProcessor::processCell`: skip halo cells and cells whose
SoA holds fewer than two molecules, otherwise run the single-cell pair
computation with macroscopic accumulation. -/
def processCell (c : CellView) : CellAction :=
  if c.isHalo || decide (c.molNum < 2) then CellAction.skip
  else CellAction.singleCellMacroscopic

/-- `VectorizedCellProcessor::processCellPair`: return if either SoA is
empty; full pair with macroscopic accumulation if neither cell is halo;
if exactly one is halo, accumulate macroscopic values only when
`c1.cellIndex < c2.cellIndex`; if both are halo, return. -/
def processCellPair (c1 c2 : CellView) : PairAction :=
  if decide (c1.molNum = 0) || decide (c2.molNum = 0) then PairAction.skip
  else if !(c1.isHalo || c2.isHalo) then PairAction.calc true
  else if c1.isHalo == !c2.isHalo then
    (if c1.cellIndex < c2.cellIndex then PairAction.calc true
     else PairAction.calc false)
  else PairAction.skip

/-- Run a cell's action on the processor state (site force and torque
accumulators together with the energy, virial and reaction-field sums are
all part of the abstract state `α`; `calcSingle` is the
`_calculatePairs<SingleCellPolicy_, true>` body). -/
def runProcessCell {α : Type} (calcSingle : α → α) (c : CellView) (s : α) : α :=
  match processCell c with
  | CellAction.skip => s
  | CellAction.singleCellMacroscopic => calcSingle s

/-- Run a cell pair's action on the processor state; `calcMacroscopic` and
`calcPlain` are `_calculatePairs<CellPairPolicy_, true/false>`. -/
def runProcessCellPair {α : Type} (calcMacroscopic calcPlain : α → α)
    (c1 c2 : CellView) (s : α) : α :=
  match processCellPair c1 c2 with
  | PairAction.skip => s
  | PairAction.calc true => calcMacroscopic s
  | PairAction.calc false => calcPlain s

/-- The per-lane result of `_loopBodyLJ`: the force triple and the amounts
added to the running `6·U_LJ` and virial sums. -/
structure LJResult where
  force : Vec3
  upotAdded : ℚ
  virialAdded : ℚ
deriving DecidableEq

/-- `VectorizedCellProcessor::_loopBodyLJ`, one lane: site separation,
masked reciprocal of the squared distance, the `s²,s⁶,s¹²` powers, force
scale, and — only under `calculateMacroscopic` — the masked shifted
potential and the virial contribution. -/
def loopBodyLJ (calculateMacroscopic : Bool)
    (m1 r1 m2 r2 : Vec3) (forceMask : Bool)
    (eps_24 sig2 shift6 : ℚ) : LJResult :=
  let c_d := vsub r1 r2
  let c_r2 := scalProd c_d c_d
  let r2_inv_unmasked := 1 / c_r2
  let r2_inv := applymask r2_inv_unmasked forceMask
  let lj2 := sig2 * r2_inv
  let lj4 := lj2 * lj2
  let lj6 := lj4 * lj2
  let lj12 := lj6 * lj6
  let lj12m6 := lj12 - lj6
  let eps24r2inv := eps_24 * r2_inv
  let lj12lj12m6 := lj12 + lj12m6
  let scale := eps24r2inv * lj12lj12m6
  let f := vscale scale c_d
  let m_d := vsub m1 m2
  if calculateMacroscopic then
    let upot_sh := eps_24 * lj12m6 + shift6
    let upot_masked := applymask upot_sh forceMask
    let virial := scalProd m_d f
    { force := f, upotAdded := upot_masked, virialAdded := virial }
  else
    { force := f, upotAdded := 0, virialAdded := 0 }

/-- Modelled from the spec: the `ForcePolicy` classes
(`SingleCellPolicy_`, `CellPairPolicy_`) are declared in
`VectorizedCellProcessor.h`, which is not among the provided sources.
Per the spec, `SingleCellPolicy` (same cell) starts the target index at
`source_site_index + 1`, `CellPairPolicy` (distinct cells) at `0`. -/
def initJ (sameCell : Bool) (i : ℕ) : ℕ := if sameCell then i + 1 else 0

/-- The within-cutoff condition of the distance lookup at target index
`j`: squared separation of the source molecule's centre of mass `pos1` and
the broadcast centre of mass of target site `j` below the squared cutoff.
Out-of-range indices are never within the cutoff. -/
def inCutoff (pos1 : Vec3) (pos2 : List Vec3) (rc2 : ℚ) (j : ℕ) : Bool :=
  match pos2.get? j with
  | some p => decide (scalProd (vsub pos1 p) (vsub pos1 p) < rc2)
  | none => false

/-- One entry of the mask array after
`VectorizedCellProcessor::calcDistLookup`: entries from the policy's start
index up to the site count receive the cutoff condition, the padded tail is
zeroed by the closing `memset`, and entries below the start index are not
written, keeping their previous contents. -/
def calcMaskAt (prev : List Bool) (pos1 : Vec3) (pos2 : List Vec3)
    (sameCell : Bool) (i : ℕ) (rc2 : ℚ) (j : ℕ) : Bool :=
  if j < initJ sameCell i then prev.getD j false
  else if j < pos2.length then inCutoff pos1 pos2 rc2 j
  else false

/-- The whole mask array (of the padded length `prev.length`) after
`VectorizedCellProcessor::calcDistLookup`. -/
def calcDistLookupMask (prev : List Bool) (pos1 : Vec3) (pos2 : List Vec3)
    (sameCell : Bool) (i : ℕ) (rc2 : ℚ) : List Bool :=
  (List.range prev.length).map (calcMaskAt prev pos1 pos2 sameCell i rc2)

/-- The value `calcDistLookup` returns (`compute_molecule`): the
disjunction of the masks written during this call, i.e. of the cutoff
conditions of the indices from the policy's start index up to the site
count. -/
def calcDistLookupRet (pos1 : Vec3) (pos2 : List Vec3)
    (sameCell : Bool) (i : ℕ) (rc2 : ℚ) : Bool :=
  (List.range pos2.length).any fun j =>
    decide (initJ sameCell i ≤ j) && inCutoff pos1 pos2 rc2 j

/-- The ten site-kind pair loops of
`VectorizedCellProcessor::_calculatePairs`, in source order. -/
inductive PairLoop where
  | ljc : PairLoop
  | chargeCharge : PairLoop
  | dipoleCharge : PairLoop
  | quadrupoleCharge : PairLoop
  | chargeDipole : PairLoop
  | dipoleDipole : PairLoop
  | quadrupoleDipole : PairLoop
  | chargeQuadrupole : PairLoop
  | dipoleQuadrupole : PairLoop
  | quadrupoleQuadrupole : PairLoop
deriving DecidableEq

/-- How each pair loop of `_calculatePairs` applies the kernel's force
triple `f` to the two site force accumulators: first component the cell-1
(source) accumulator, second the cell-2 (target) accumulator. The LJ, the
like-kind and the `charge→dipole`-style loops add `f` to the source and
subtract it from the target; the `dipole→charge`-style loops (where the
shared kernel was called with the roles exchanged) subtract from the
source and add to the target. -/
def applyPairForces (loop : PairLoop) (f srcAcc tgtAcc : Vec3) : Vec3 × Vec3 :=
  match loop with
  | PairLoop.ljc => (vadd srcAcc f, vsub tgtAcc f)
  | PairLoop.chargeCharge => (vadd srcAcc f, vsub tgtAcc f)
  | PairLoop.dipoleCharge => (vsub srcAcc f, vadd tgtAcc f)
  | PairLoop.quadrupoleCharge => (vsub srcAcc f, vadd tgtAcc f)
  | PairLoop.chargeDipole => (vadd srcAcc f, vsub tgtAcc f)
  | PairLoop.dipoleDipole => (vadd srcAcc f, vsub tgtAcc f)
  | PairLoop.quadrupoleDipole => (vsub srcAcc f, vadd tgtAcc f)
  | PairLoop.chargeQuadrupole => (vadd srcAcc f, vsub tgtAcc f)
  | PairLoop.dipoleQuadrupole => (vadd srcAcc f, vsub tgtAcc f)
  | PairLoop.quadrupoleQuadrupole => (vadd srcAcc f, vsub tgtAcc f)

/-- The hard deadlock timeout of
`NeighbourCommunicationScheme1Stage::finalizeExchangeMoleculesMPI`,
a local variable initialized to 60 seconds. -/
def deadlockTimeOut : ℚ := 60

/-- Observable events of the deadlock-catching block: a round of
per-neighbour diagnostics, or the `global_simulation->exit` call. -/
inductive DLEvent where
  | diagnostics : DLEvent
  | exitCall (code : Int) : DLEvent
deriving DecidableEq

/-- The `catch deadlocks` block at the end of each iteration of the
finalize loop: if the waiting time exceeds the current `waitCounter`, warn,
print per-neighbour diagnostics and advance the counter by one second; if
it exceeds `deadlockTimeOut`, print per-neighbour diagnostics and call
`global_simulation->exit(457)`. Returns the emitted events in order and
the new `waitCounter`. -/
def catchDeadlocks (waitingTime waitCounter : ℚ) : List DLEvent × ℚ :=
  let warnEvents := if waitingTime > waitCounter then [DLEvent.diagnostics] else []
  let waitCounter' := if waitingTime > waitCounter then waitCounter + 1 else waitCounter
  let abortEvents :=
    if waitingTime > deadlockTimeOut then [DLEvent.diagnostics, DLEvent.exitCall 457]
    else []
  (warnEvents ++ abortEvents, waitCounter')

/-- The loop at the top of `finalizeExchangeMoleculesMPI` that reduces the
caller's `removeRecvDuplicates` flag: `removeRecvDuplicates &=
_coversWholeDomain[d]` for every dimension `d ∈ {0,1,2}`. -/
def finalizeRemoveDuplicates (removeRecvDuplicates : Bool)
    (coversWholeDomain : Fin 3 → Bool) : Bool :=
  (List.finRange 3).foldl (fun acc d => acc && coversWholeDomain d)
    removeRecvDuplicates

/-- The Meland2004 branch of `Mirror::readXML`: if the
`meland/velo_target` parameter cannot be read from the configuration, the
branch reports the parameters as corrupted/incomplete and calls
`Simulation::exit(-2004)`; otherwise no exit call is made. (The missing
`Simulation::exit` is, modelled from the spec, termination of the process
with the given code.) -/
def mirrorReadXMLMeland (hasVeloTarget : Bool) : Option Int :=
  if hasVeloTarget then none else some (-2004)

/-- Squared length of the site separation, `c_r2` in the LJ loop body. -/
def siteDistSq (r1 r2 : Vec3) : ℚ := scalProd (vsub r1 r2) (vsub r1 r2)

/-- The specification's `s² = σ²/r²`. -/
def ljS2 (sig2 r2 : ℚ) : ℚ := sig2 / r2

/-- The specification's `s⁶ = (s²)³`. -/
def ljS6 (sig2 r2 : ℚ) : ℚ := ljS2 sig2 r2 ^ 3

/-- The specification's `s¹² = (s⁶)²`. -/
def ljS12 (sig2 r2 : ℚ) : ℚ := ljS6 sig2 r2 ^ 2

/-- The reaction-field prefactor `_epsRFInvrc3` set up by the
`VectorizedCellProcessor` constructor:
`2·(ε_RF − 1) / ((r_c·r_c·r_c)·(2·ε_RF + 1))`. -/
def epsRFInvrc3 (epsilonRF cutoffRadius : ℚ) : ℚ :=
  2 * (epsilonRF - 1) /
    ((cutoffRadius * cutoffRadius * cutoffRadius) * (2 * epsilonRF + 1))

/-- C9: for a cell that is a halo cell or whose SoA holds fewer than two
molecules, `processCell` leaves all processor state — site force and torque
accumulators, energy, virial and reaction-field sums — unchanged. -/
theorem processCell_halo_or_small_frame {α : Type} (calcSingle : α → α)
    (c : CellView) (s : α) (h : c.isHalo = true ∨ c.molNum < 2) :
    runProcessCell calcSingle c s = s := by
  rcases h with h | h <;> simp [runProcessCell, processCell, h]

theorem processCell_halo_or_small_frame_witness :
    runProcessCell (fun x : ℚ => x + 1) ⟨true, 0, 5⟩ 3 = 3 :=
  processCell_halo_or_small_frame (fun x : ℚ => x + 1) ⟨true, 0, 5⟩ 3
    (Or.inl rfl)

/-- C10: for a pair of cells where at least one SoA holds zero molecules,
`processCellPair` returns without modifying any state, regardless of the
halo status of either cell. -/
theorem processCellPair_empty_frame {α : Type} (calcMacroscopic calcPlain : α → α)
    (c1 c2 : CellView) (s : α) (h : c1.molNum = 0 ∨ c2.molNum = 0) :
    runProcessCellPair calcMacroscopic calcPlain c1 c2 s = s := by
  rcases h with h | h <;> simp [runProcessCellPair, processCellPair, h]

theorem processCellPair_empty_frame_witness :
    runProcessCellPair (fun x : ℚ => x + 1) (fun x : ℚ => x + 2)
      ⟨false, 0, 0⟩ ⟨true, 1, 7⟩ 3 = 3 :=
  processCellPair_empty_frame _ _ ⟨false, 0, 0⟩ ⟨true, 1, 7⟩ 3 (Or.inl rfl)

/-- C1: for a pair of nonempty cells of which exactly one is a halo cell,
`processCellPair` invokes the pair kernels with macroscopic accumulation
iff `cellIndex c1 < cellIndex c2`; otherwise it still invokes them (forces
are applied) but without macroscopic accumulation. -/
theorem processCellPair_one_halo_macro_iff (c1 c2 : CellView)
    (hhalo : c1.isHalo ≠ c2.isHalo) (h1 : c1.molNum ≠ 0) (h2 : c2.molNum ≠ 0) :
    (processCellPair c1 c2 = PairAction.calc true ↔
      c1.cellIndex < c2.cellIndex) ∧
    (¬ c1.cellIndex < c2.cellIndex →
      processCellPair c1 c2 = PairAction.calc false) := by
  by_cases hlt : c1.cellIndex < c2.cellIndex <;>
    cases hb1 : c1.isHalo <;> cases hb2 : c2.isHalo <;>
    simp_all [processCellPair]

theorem processCellPair_one_halo_macro_iff_witness :
    (processCellPair ⟨false, 0, 1⟩ ⟨true, 1, 1⟩ = PairAction.calc true ↔
      (0 : ℕ) < 1) ∧
    (¬ (0 : ℕ) < 1 →
      processCellPair ⟨false, 0, 1⟩ ⟨true, 1, 1⟩ = PairAction.calc false) :=
  processCellPair_one_halo_macro_iff ⟨false, 0, 1⟩ ⟨true, 1, 1⟩
    (by decide) (by decide) (by decide)

/-- C4: in every one of the ten site-kind pair loops of
`_calculatePairs`, the force contribution applied to the cell-1 (source)
accumulator is exactly the negation of the contribution applied to the
cell-2 (target) accumulator — Newton's third law, for all inputs. -/
theorem applyPairForces_newton3 (loop : PairLoop) (f srcAcc tgtAcc : Vec3) :
    vsub (applyPairForces loop f srcAcc tgtAcc).1 srcAcc =
      vneg (vsub (applyPairForces loop f srcAcc tgtAcc).2 tgtAcc) := by
  cases loop <;>
    simp only [applyPairForces, vadd, vsub, vneg, Prod.mk.injEq] <;>
    refine ⟨by ring, by ring, by ring⟩

/-- C7 counterexample: when the Meland2004 `velo_target` parameter is
missing, `Mirror::readXML` calls `Simulation::exit` with `-2004`, not with
the documented `2004`. -/
theorem mirrorReadXMLMeland_cex :
    mirrorReadXMLMeland false = some (-2004) ∧
    mirrorReadXMLMeland false ≠ some 2004 := by
  constructor
  · rfl
  · decide

/-- C7 amended: on corrupted/incomplete Meland2004 parameters the program
terminates via `Simulation::exit` with code `-2004` (the negative of the
documented 2004); with an intact `velo_target` no exit call is made. -/
theorem mirrorReadXMLMeland_amended :
    mirrorReadXMLMeland false = some (-2004) ∧
    mirrorReadXMLMeland true = none := by
  exact ⟨rfl, rfl⟩

/-- C8 counterexample: with duplicate removal requested and a subdomain
covering the whole domain in dimension 0 only, the finalize loop turns the
`removeRecvDuplicates` flag off, so received molecules are merged without
duplicate removal although some dimension is covered. -/
theorem finalizeRemoveDuplicates_cex :
    finalizeRemoveDuplicates true (fun d => decide (d = 0)) = false ∧
    (fun d : Fin 3 => decide (d = 0)) 0 = true := by
  decide

/-- C8 amended: the one-stage exchange merges received molecules with
duplicate removal by molecule id iff removal was requested by the caller
and the subdomain covers the whole global domain in every dimension. -/
theorem finalizeRemoveDuplicates_iff (removeRecvDuplicates : Bool)
    (coversWholeDomain : Fin 3 → Bool) :
    finalizeRemoveDuplicates removeRecvDuplicates coversWholeDomain = true ↔
      (removeRecvDuplicates = true ∧ ∀ d : Fin 3, coversWholeDomain d = true) := by
  have hexp : finalizeRemoveDuplicates removeRecvDuplicates coversWholeDomain =
      (((removeRecvDuplicates && coversWholeDomain 0) && coversWholeDomain 1) &&
        coversWholeDomain 2) := rfl
  rw [hexp]
  constructor
  · intro h
    simp only [Bool.and_eq_true] at h
    refine ⟨h.1.1.1, ?_⟩
    intro d
    fin_cases d
    · exact h.1.1.2
    · exact h.1.2
    · exact h.2
  · rintro ⟨h1, h2⟩
    simp [h1, h2 0, h2 1, h2 2]

/-- C2: on an unmasked lane with positive squared separation, `_loopBodyLJ`
produces the force `d · (ε24/r²)·(2·s¹² − s⁶)` along the site separation
`d`, and (macroscopic accumulation enabled) adds `ε24·(s¹² − s⁶) + shift6`
to the running `6·U_LJ` sum. -/
theorem loopBodyLJ_unmasked_force_upot
    (m1 r1 m2 r2 : Vec3) (eps_24 sig2 shift6 : ℚ)
    (hr2 : 0 < siteDistSq r1 r2) :
    (loopBodyLJ true m1 r1 m2 r2 true eps_24 sig2 shift6).force =
      vscale ((eps_24 / siteDistSq r1 r2) *
        (2 * ljS12 sig2 (siteDistSq r1 r2) - ljS6 sig2 (siteDistSq r1 r2)))
        (vsub r1 r2) ∧
    (loopBodyLJ true m1 r1 m2 r2 true eps_24 sig2 shift6).upotAdded =
      eps_24 * (ljS12 sig2 (siteDistSq r1 r2) - ljS6 sig2 (siteDistSq r1 r2)) +
        shift6 := by
  have h0 : scalProd (vsub r1 r2) (vsub r1 r2) ≠ 0 := ne_of_gt hr2
  unfold siteDistSq ljS12 ljS6 ljS2
  unfold loopBodyLJ applymask
  simp only [if_true]
  constructor
  · congr 1
    field_simp
    ring
  · field_simp
    ring

theorem loopBodyLJ_unmasked_force_upot_witness :
    (0 : ℚ) < siteDistSq (1, 0, 0) (0, 0, 0) ∧
    ((loopBodyLJ true (0, 0, 0) (1, 0, 0) (0, 0, 0) (0, 0, 0) true 24 1 5).force =
      vscale ((24 / siteDistSq (1, 0, 0) (0, 0, 0)) *
        (2 * ljS12 1 (siteDistSq (1, 0, 0) (0, 0, 0)) -
          ljS6 1 (siteDistSq (1, 0, 0) (0, 0, 0))))
        (vsub (1, 0, 0) (0, 0, 0)) ∧
    (loopBodyLJ true (0, 0, 0) (1, 0, 0) (0, 0, 0) (0, 0, 0) true 24 1 5).upotAdded =
      24 * (ljS12 1 (siteDistSq (1, 0, 0) (0, 0, 0)) -
        ljS6 1 (siteDistSq (1, 0, 0) (0, 0, 0))) + 5) :=
  ⟨by norm_num [siteDistSq, scalProd, vsub],
   loopBodyLJ_unmasked_force_upot (0, 0, 0) (1, 0, 0) (0, 0, 0) (0, 0, 0)
     24 1 5 (by norm_num [siteDistSq, scalProd, vsub])⟩

/-- C5: the constructor's reaction-field prefactor equals
`2·(ε_RF − 1)/((2·ε_RF + 1)·r_c³)`, and as `ε_RF` tends to infinity it
tends to `1/r_c³`. -/
theorem epsRFInvrc3_formula_and_limit (rc : ℚ) (hrc : 0 < rc) :
    (∀ e : ℚ, epsRFInvrc3 e rc = 2 * (e - 1) / ((2 * e + 1) * rc ^ 3)) ∧
    Filter.Tendsto (fun e : ℚ => epsRFInvrc3 e rc) Filter.atTop
      (nhds (1 / rc ^ 3)) := by
  constructor
  · intro e
    unfold epsRFInvrc3
    rw [show (rc * rc * rc) * (2 * e + 1) = (2 * e + 1) * rc ^ 3 by ring]
  · have h1 : Filter.Tendsto (fun e : ℚ => 2 * e + 1) Filter.atTop
        Filter.atTop :=
      Filter.tendsto_atTop_add_const_right _ 1
        (Filter.Tendsto.const_mul_atTop (by norm_num) Filter.tendsto_id)
    have h2 : Filter.Tendsto (fun e : ℚ => (2 * e + 1)⁻¹) Filter.atTop
        (nhds 0) := tendsto_inv_atTop_zero.comp h1
    have h3 : Filter.Tendsto
        (fun e : ℚ => 1 / rc ^ 3 * (1 - 3 * (2 * e + 1)⁻¹)) Filter.atTop
        (nhds (1 / rc ^ 3 * (1 - 3 * 0))) :=
      Filter.Tendsto.const_mul _ (Filter.Tendsto.sub tendsto_const_nhds
        (Filter.Tendsto.const_mul _ h2))
    have h4 : Filter.Tendsto
        (fun e : ℚ => 1 / rc ^ 3 * (1 - 3 * (2 * e + 1)⁻¹)) Filter.atTop
        (nhds (1 / rc ^ 3)) := by
      simpa using h3
    refine Filter.Tendsto.congr' ?_ h4
    filter_upwards [Filter.eventually_ge_atTop (1 : ℚ)] with e he
    have h2e : (2 * e + 1) ≠ 0 := by
      have : (0 : ℚ) < 2 * e + 1 := by linarith
      exact ne_of_gt this
    have hrc0 : rc ≠ 0 := ne_of_gt hrc
    unfold epsRFInvrc3
    field_simp
    ring

theorem epsRFInvrc3_formula_and_limit_witness :
    (0 : ℚ) < 1 ∧
    ((∀ e : ℚ, epsRFInvrc3 e 1 = 2 * (e - 1) / ((2 * e + 1) * 1 ^ 3)) ∧
    Filter.Tendsto (fun e : ℚ => epsRFInvrc3 e 1) Filter.atTop
      (nhds (1 / 1 ^ 3))) :=
  ⟨by norm_num, epsRFInvrc3_formula_and_limit 1 (by norm_num)⟩

/-- C6: the deadlock-catching block of the finalize loop prints
per-neighbour diagnostics exactly when the waiting time has passed the
current one-second threshold (which then advances by one second, so
diagnostics recur at every further elapsed second past the first), and
when the waiting time exceeds the 60-second timeout it prints
per-neighbour diagnostics and then calls `exit` — with code 457 and with
no other code ever. -/
theorem catchDeadlocks_spec (t wc : ℚ) :
    (DLEvent.diagnostics ∈ (catchDeadlocks t wc).1 ↔
      (wc < t ∨ deadlockTimeOut < t)) ∧
    (wc < t → (catchDeadlocks t wc).2 = wc + 1) ∧
    (¬ wc < t → (catchDeadlocks t wc).2 = wc) ∧
    (DLEvent.exitCall 457 ∈ (catchDeadlocks t wc).1 ↔ deadlockTimeOut < t) ∧
    (∀ c : Int, DLEvent.exitCall c ∈ (catchDeadlocks t wc).1 → c = 457) ∧
    (deadlockTimeOut < t → ∃ pre, (catchDeadlocks t wc).1 =
      pre ++ [DLEvent.diagnostics, DLEvent.exitCall 457]) := by
  by_cases h1 : wc < t <;> by_cases h2 : deadlockTimeOut < t <;>
    simp_all [catchDeadlocks, gt_iff_lt] <;>
    first
      | exact fun _ _ h => h
      | exact ⟨[DLEvent.diagnostics], rfl⟩

theorem catchDeadlocks_spec_witness :
    (DLEvent.diagnostics ∈ (catchDeadlocks 61 1).1) ∧
    ((catchDeadlocks 61 1).2 = 1 + 1) ∧
    (DLEvent.exitCall 457 ∈ (catchDeadlocks 61 1).1) ∧
    (∃ pre, (catchDeadlocks 61 1).1 =
      pre ++ [DLEvent.diagnostics, DLEvent.exitCall 457]) := by
  obtain ⟨ha, hb, _, hd, _, hf⟩ := catchDeadlocks_spec 61 1
  have h60 : deadlockTimeOut < (61 : ℚ) := by norm_num [deadlockTimeOut]
  exact ⟨ha.2 (Or.inl (by norm_num)), hb (by norm_num), hd.2 h60, hf h60⟩

/-- Helper: an index whose lookup entry is within the cutoff is in range. -/
theorem inCutoff_lt_length {pos1 : Vec3} {pos2 : List Vec3} {rc2 : ℚ} {j : ℕ}
    (h : inCutoff pos1 pos2 rc2 j = true) : j < pos2.length := by
  by_contra hlt
  push_neg at hlt
  unfold inCutoff at h
  rw [List.get?_eq_none.mpr hlt] at h
  exact absurd h (by simp)

/-- Helper: reading the produced mask array at an in-range index gives the
per-entry value `calcMaskAt`. -/
theorem calcDistLookupMask_getD {prev : List Bool} {pos1 : Vec3}
    {pos2 : List Vec3} {sameCell : Bool} {i : ℕ} {rc2 : ℚ} {j : ℕ}
    (hj : j < prev.length) :
    (calcDistLookupMask prev pos1 pos2 sameCell i rc2).getD j false =
      calcMaskAt prev pos1 pos2 sameCell i rc2 j := by
  unfold calcDistLookupMask
  rw [List.getD_eq_getElem?_getD, List.getElem?_map]
  rw [List.getElem?_range hj]
  rfl

/-- C3 counterexample: with a same-cell lookup for source site 1 over two
coincident sites (both within the cutoff), a previous call has left entry
1 all-ones; the new call for source index 1 writes nothing at or below
index 1, so entry 1 stays all-ones although `1 > 1` fails, and the
returned early-out predicate is zero although a mask entry is all-ones. -/
theorem calcDistLookup_stale_cex :
    (calcDistLookupMask [false, true] (0, 0, 0) [(0, 0, 0), (0, 0, 0)]
      true 1 1).getD 1 false = true ∧
    calcDistLookupRet (0, 0, 0) [(0, 0, 0), (0, 0, 0)] true 1 1 = false := by
  decide

/-- C3 amended: `calcDistLookup` writes, at every index from the policy's
start index up to the padded length, an all-ones entry iff the squared
centre-of-mass separation is below the squared cutoff (and, same-cell,
`j > i`, automatic there); the padded tail is written zero; entries below
the policy's start index are left unchanged (not zeroed); and the returned
early-out predicate is nonzero iff some entry at or above the start index
is all-ones. -/
theorem calcDistLookup_amended (prev : List Bool) (pos1 : Vec3)
    (pos2 : List Vec3) (sameCell : Bool) (i : ℕ) (rc2 : ℚ)
    (hlen : pos2.length ≤ prev.length)
    (hi : sameCell = true → i < pos2.length) :
    (calcDistLookupMask prev pos1 pos2 sameCell i rc2).length = prev.length ∧
    (∀ j, j < initJ sameCell i → j < prev.length →
      (calcDistLookupMask prev pos1 pos2 sameCell i rc2).getD j false =
        prev.getD j false) ∧
    (∀ j, initJ sameCell i ≤ j → j < prev.length →
      ((calcDistLookupMask prev pos1 pos2 sameCell i rc2).getD j false = true ↔
        (inCutoff pos1 pos2 rc2 j = true ∧ (sameCell = true → i < j)))) ∧
    (∀ j, pos2.length ≤ j →
      (calcDistLookupMask prev pos1 pos2 sameCell i rc2).getD j false =
        false) ∧
    (calcDistLookupRet pos1 pos2 sameCell i rc2 = true ↔
      ∃ j, initJ sameCell i ≤ j ∧ inCutoff pos1 pos2 rc2 j = true) := by
  refine ⟨?_, ?_, ?_, ?_, ?_⟩
  · simp [calcDistLookupMask]
  · intro j hj hjlen
    rw [calcDistLookupMask_getD hjlen]
    unfold calcMaskAt
    rw [if_pos hj]
  · intro j hji hjlen
    rw [calcDistLookupMask_getD hjlen]
    unfold calcMaskAt
    rw [if_neg (by omega)]
    by_cases hj2 : j < pos2.length
    · rw [if_pos hj2]
      constructor
      · intro h
        refine ⟨h, ?_⟩
        intro hsc
        subst hsc
        rw [show initJ true i = i + 1 from rfl] at hji
        omega
      · exact fun h => h.1
    · rw [if_neg hj2]
      constructor
      · intro h
        exact absurd h (by simp)
      · intro h
        exact absurd (inCutoff_lt_length h.1) hj2
  · intro j hj
    by_cases hjlen : j < prev.length
    · rw [calcDistLookupMask_getD hjlen]
      unfold calcMaskAt
      have hnotInit : ¬ j < initJ sameCell i := by
        cases hsc : sameCell
        · simp [initJ]
        · have := hi hsc
          rw [show initJ true i = i + 1 from rfl]
          omega
      rw [if_neg hnotInit, if_neg (by omega)]
    · push_neg at hjlen
      apply List.getD_eq_default
      simpa [calcDistLookupMask] using hjlen
  · unfold calcDistLookupRet
    rw [List.any_eq_true]
    constructor
    · rintro ⟨j, hmem, hj⟩
      rw [Bool.and_eq_true, decide_eq_true_eq] at hj
      exact ⟨j, hj.1, hj.2⟩
    · rintro ⟨j, hji, hj⟩
      refine ⟨j, List.mem_range.mpr (inCutoff_lt_length hj), ?_⟩
      rw [Bool.and_eq_true, decide_eq_true_eq]
      exact ⟨hji, hj⟩

theorem calcDistLookup_amended_witness :
    (calcDistLookupMask [false, false, false, false] (0, 0, 0)
      [(0, 0, 0), (5, 0, 0), (0, 0, 0)] true 0 1).length =
      [false, false, false, false].length ∧
    (calcDistLookupMask [false, false, false, false] (0, 0, 0)
      [(0, 0, 0), (5, 0, 0), (0, 0, 0)] true 0 1).getD 0 false =
      [false, false, false, false].getD 0 false ∧
    (calcDistLookupMask [false, false, false, false] (0, 0, 0)
      [(0, 0, 0), (5, 0, 0), (0, 0, 0)] true 0 1).getD 2 false = true ∧
    (calcDistLookupMask [false, false, false, false] (0, 0, 0)
      [(0, 0, 0), (5, 0, 0), (0, 0, 0)] true 0 1).getD 3 false = false ∧
    calcDistLookupRet (0, 0, 0) [(0, 0, 0), (5, 0, 0), (0, 0, 0)] true 0 1 =
      true := by
  obtain ⟨h1, h2, h3, h4, h5⟩ := calcDistLookup_amended
    [false, false, false, false] (0, 0, 0)
    [(0, 0, 0), (5, 0, 0), (0, 0, 0)] true 0 1 (by norm_num)
    (fun _ => by norm_num)
  exact ⟨h1, h2 0 (by decide) (by decide),
    (h3 2 (by decide) (by decide)).mpr
      ⟨by simp [inCutoff, scalProd, vsub], fun _ => by norm_num⟩,
    h4 3 (by decide),
    h5.mpr ⟨2, by decide, by simp [inCutoff, scalProd, vsub]⟩⟩

end LS1
